import Mathlib

/-!
Verification development for `tm2py/components/network/highway/highway_network.py`
(class `PrepareNetwork`).

Numeric link attributes and toll rates are embedded as rationals (`ℚ`); the
Python code manipulates them with exact decimal constants (`0.25`, `100`,
`1000`) for which rational arithmetic is a faithful model.  Python's `round`
(banker's rounding, round-half-to-even) is embedded as `pyRound`; Python's
`int()` truncation toward zero as `pyInt`.  Link attribute dictionaries keyed
by vehicle-group name (`@bridgetoll_YY`, `@valuetoll_YY`) are embedded as
functions `String → ℚ`.
-/

namespace Tm2py

/-- Python `int()` applied to a number: truncation toward zero. -/
def pyInt (x : ℚ) : ℤ :=
  if 0 ≤ x then ⌊x⌋ else -⌊-x⌋

/-- Python `round()` applied to a number: round half to even (banker's rounding). -/
def pyRound (x : ℚ) : ℤ :=
  let f := ⌊x⌋
  let r := x - (f : ℚ)
  if r < 1/2 then f
  else if 1/2 < r then f + 1
  else if f % 2 = 0 then f else f + 1

/-- Python `str.lower()` restricted to ASCII data, as used on time period names. -/
def lowerStr (s : String) : String := String.mk (s.data.map Char.toLower)

/-- The whitespace characters removed by Python `str.strip()`. -/
def isPySpace (c : Char) : Bool :=
  c = ' ' || c = '\t' || c = '\n' || c = '\x0d' || c = '\x0b' || c = '\x0c'

/-- Python `str.strip()` on character data. -/
def stripChars (cs : List Char) : List Char :=
  ((cs.dropWhile isPySpace).reverse.dropWhile isPySpace).reverse

/-- Python `str.split(sep)` for a one-character separator, on character data
(`"".split(",") == [""]`, and a trailing separator yields a trailing empty
field, as in Python). -/
def splitChars (sep : Char) : List Char → List (List Char)
  | [] => [[]]
  | c :: rest =>
    let r := splitChars sep rest
    if c = sep then [] :: r
    else
      match r with
      | [] => [[c]]
      | h :: t => (c :: h) :: t

/-- The toll-rate column name `"toll" + time_period.lower() + "_" + src_veh`
used in `_set_tolls` and `validate_inputs`. -/
def tollColName (time_period src_veh : String) : String :=
  "toll" ++ lowerStr time_period ++ "_" ++ src_veh

/-- One data row of the toll file, as produced by `_get_toll_indices`:
the integer `fac_index` key plus the rate columns (a string-keyed record,
embedded as a total function since `_set_tolls` assumes the needed columns
exist after `validate_inputs`). -/
structure TollRow where
  fac_index : ℤ
  rates : String → ℚ

/-- `PrepareNetwork._get_toll_indices`: builds the dict
`tolls[int(data["fac_index"])] = data`, later rows overwriting earlier ones. -/
def getTollIndices (rows : List TollRow) : ℤ → Option TollRow :=
  rows.foldl (fun tolls row => fun k => if k = row.fac_index then some row else tolls k)
    (fun _ => none)

/-- A network link with the attributes read and written by `_set_tolls`:
`@tollbooth`, `@tollseg`, `@useclass`, `length`, `@vc`,
`@update_dynamic_toll`, and the per-vehicle-group `@bridgetoll_YY` and
`@valuetoll_YY` attribute families. -/
@[ext]
structure Link where
  tollbooth : ℚ
  tollseg : ℚ
  useclass : ℚ
  length : ℚ
  vc : ℚ
  update_dynamic_toll : ℚ
  bridgetoll : String → ℚ
  valuetoll : String → ℚ

/-- The `config.highway.tolls` fields used by `PrepareNetwork`. -/
structure TollsConfig where
  src_vehicle_group_names : List String
  dst_vehicle_group_names : List String
  valuetoll_start_tollbooth_code : ℚ
  run_dynamic_toll : Bool
  max_dynamic_valuetoll : ℚ

/-- The constant `VALUETOLL_INCREMENT = 0.25` of `_set_tolls`. -/
def VALUETOLL_INCREMENT : ℚ := 1/4

/-- The candidate per-mile value toll computed in the dynamic adjustment loop:
`valuetoll_per_mile + VALUETOLL_INCREMENT * increase_ratio` where
`valuetoll_per_mile = (link["@valuetoll_dst"] / link.length) / 100`. -/
def increasedToll (increase_ratio : ℤ) (l : Link) (dst_veh : String) : ℚ :=
  let valuetoll_per_mile := l.valuetoll dst_veh / l.length / 100
  valuetoll_per_mile + VALUETOLL_INCREMENT * (increase_ratio : ℚ)

/-- One iteration of the dynamic adjustment's vehicle-group loop
(`_set_tolls`, dynamic branch): if the increased value toll exceeds
`max_dynamic_valuetoll`, clamp the stored toll and clear
`@update_dynamic_toll`, otherwise store the increased toll. -/
def updateGroupToll (max_dynamic_valuetoll : ℚ) (increase_ratio : ℤ)
    (l : Link) (dst_veh : String) : Link :=
  if increasedToll increase_ratio l dst_veh > max_dynamic_valuetoll then
    { l with
      valuetoll := fun s =>
        if s = dst_veh then max_dynamic_valuetoll * l.length * 100 else l.valuetoll s,
      update_dynamic_toll := 0 }
  else
    { l with
      valuetoll := fun s =>
        if s = dst_veh then increasedToll increase_ratio l dst_veh * l.length * 100
        else l.valuetoll s }

/-- The per-link body of the dynamic adjustment phase of `_set_tolls`
(lines 253-267): for a value-toll link (`@tollbooth > 0` and
`@tollbooth >= valuetoll_start_tollbooth_code`) with `@vc > 1` and
`@update_dynamic_toll == 1`, update every vehicle group's value toll
(the returned `Bool` records whether `dynamic_toll_change` was incremented). -/
def dynAdjustLink (valuetoll_start_tollbooth_code max_dynamic_valuetoll : ℚ)
    (src_veh_groups dst_veh_groups : List String) (l : Link) : Link × Bool :=
  if l.tollbooth > 0 ∧ l.tollbooth ≥ valuetoll_start_tollbooth_code then
    if l.vc > 1 ∧ l.update_dynamic_toll = 1 then
      ((src_veh_groups.zip dst_veh_groups).foldl
        (fun lk sd => updateGroupToll max_dynamic_valuetoll (pyRound l.vc) lk sd.2) l, true)
    else (l, false)
  else (l, false)

/-- One iteration of the bridge-toll assignment loop:
`link["@bridgetoll_dst"] = float(data_row["toll<period>_<src>"]) * 100`. -/
def setBridgeToll (data_row : TollRow) (time_period : String)
    (lk : Link) (sd : String × String) : Link :=
  { lk with bridgetoll := fun s =>
      if s = sd.2 then data_row.rates (tollColName time_period sd.1) * 100
      else lk.bridgetoll s }

/-- One iteration of the value-toll assignment loop (static policy):
`link["@valuetoll_dst"] = float(data_row["toll<period>_<src>"]) * link.length * 100`. -/
def setValueToll (data_row : TollRow) (time_period : String)
    (lk : Link) (sd : String × String) : Link :=
  { lk with valuetoll := fun s =>
      if s = sd.2 then data_row.rates (tollColName time_period sd.1) * lk.length * 100
      else lk.valuetoll s }

/-- One iteration of the dynamic initialization loop:
`link["@valuetoll_dst"] = 0`. -/
def initValueToll (lk : Link) (sd : String × String) : Link :=
  { lk with valuetoll := fun s => if s = sd.2 then 0 else lk.valuetoll s }

/-- The per-link body of the static toll policy of `_set_tolls`
(lines 272-299): composite-index lookup, then bridge or value tolls by the
`valuetoll_start_tollbooth_code` threshold; a lookup miss leaves the link
unchanged and emits a warning (recorded here as `some index`). -/
def setStaticTollsLink (toll_index : ℤ → Option TollRow) (time_period : String)
    (src_veh_groups dst_veh_groups : List String)
    (valuetoll_start_tollbooth_code : ℚ) (l : Link) : Link × Option ℤ :=
  if l.tollbooth ≠ 0 then
    let index := pyInt (l.tollbooth * 1000 + l.tollseg * 10 + l.useclass)
    match toll_index index with
    | none => (l, some index)
    | some data_row =>
      if l.tollbooth < valuetoll_start_tollbooth_code then
        ((src_veh_groups.zip dst_veh_groups).foldl (setBridgeToll data_row time_period) l,
          none)
      else
        ((src_veh_groups.zip dst_veh_groups).foldl (setValueToll data_row time_period) l,
          none)
  else (l, none)

/-- The per-link body of the dynamic initialization phase of `_set_tolls`
(lines 224-246): bridge tolls from the (bridge-only) lookup table for
`@tollbooth < valuetoll_start_tollbooth_code`, otherwise set
`@update_dynamic_toll = 1` and initialize every value toll to 0. -/
def setDynamicInitLink (toll_index : ℤ → Option TollRow) (time_period : String)
    (src_veh_groups dst_veh_groups : List String)
    (valuetoll_start_tollbooth_code : ℚ) (l : Link) : Link × Option ℤ :=
  if l.tollbooth ≠ 0 then
    if l.tollbooth < valuetoll_start_tollbooth_code then
      let index := pyInt (l.tollbooth * 1000 + l.tollseg * 10 + l.useclass)
      match toll_index index with
      | none => (l, some index)
      | some data_row =>
        ((src_veh_groups.zip dst_veh_groups).foldl (setBridgeToll data_row time_period) l,
          none)
    else
      ((src_veh_groups.zip dst_veh_groups).foldl initValueToll
        { l with update_dynamic_toll := 1 }, none)
  else (l, none)

/-- `PrepareNetwork._set_tolls` on one time period's network: dispatches on
`run_dynamic_toll` and, in the dynamic case, on whether this is the
initialization call (`iteration == 0 and _dynamic_toll_iter == 0`) or an
adjustment call.  Returns the updated links, the number of links counted into
`self.dynamic_toll_change`, and the indices of warned lookup misses. -/
def setTolls (cfg : TollsConfig) (bridge_rows full_rows : List TollRow)
    (time_period : String) (iteration dynamic_toll_iter : ℤ)
    (links : List Link) : List Link × ℕ × List ℤ :=
  if cfg.run_dynamic_toll then
    let toll_index := getTollIndices bridge_rows
    if iteration = 0 ∧ dynamic_toll_iter = 0 then
      let res := links.map (setDynamicInitLink toll_index time_period
        cfg.src_vehicle_group_names cfg.dst_vehicle_group_names
        cfg.valuetoll_start_tollbooth_code)
      (res.map Prod.fst, 0, res.filterMap Prod.snd)
    else
      let res := links.map (dynAdjustLink cfg.valuetoll_start_tollbooth_code
        cfg.max_dynamic_valuetoll cfg.src_vehicle_group_names cfg.dst_vehicle_group_names)
      (res.map Prod.fst, res.countP (fun p => p.2), [])
  else
    let toll_index := getTollIndices full_rows
    let res := links.map (setStaticTollsLink toll_index time_period
      cfg.src_vehicle_group_names cfg.dst_vehicle_group_names
      cfg.valuetoll_start_tollbooth_code)
    (res.map Prod.fst, 0, res.filterMap Prod.snd)

/-- A sequence of dynamic adjustment calls on one link, each preceded by the
external assignment solver overwriting `@vc` (the only `_set_tolls`-relevant
link attribute written between calls). -/
def dynAdjustSeq (valuetoll_start_tollbooth_code max_dynamic_valuetoll : ℚ)
    (src_veh_groups dst_veh_groups : List String) (vcs : List ℚ) (l : Link) : Link :=
  vcs.foldl (fun lk v =>
    (dynAdjustLink valuetoll_start_tollbooth_code max_dynamic_valuetoll
      src_veh_groups dst_veh_groups { lk with vc := v }).1) l

/-- The run-level dynamic-toll state threaded through the `RunController`:
`controller.iteration`, `controller._dynamic_toll_iter`,
`controller._stop_dynamic_toll`. -/
structure Controller where
  iteration : ℤ
  dynamic_toll_iter : ℤ
  stop_dynamic_toll : Bool

/-- Effect on one link of `PrepareNetwork._create_class_attributes`
(`create_extra_attribute(..., overwrite=True)` resets the created computed
attributes of this model to their default 0; `@vc` is created only when MSA
averaging or dynamic tolling is on, `@update_dynamic_toll` only when dynamic
tolling is on). -/
def createClassAttributes (run_dynamic_toll apply_msa : Bool) (l : Link) : Link :=
  { l with
    vc := if apply_msa ∨ run_dynamic_toll then 0 else l.vc,
    update_dynamic_toll := if run_dynamic_toll then 0 else l.update_dynamic_toll,
    bridgetoll := fun _ => 0,
    valuetoll := fun _ => 0 }

/-- The run-level state update at the end of `PrepareNetwork.run`
(lines 95-100): set `_stop_dynamic_toll` when the dynamic-toll iteration
counter is positive and no link changed this run, then advance
`_dynamic_toll_iter` unless stopped. -/
def dynTollRunUpdate (run_dynamic_toll : Bool) (dynamic_toll_change : ℕ)
    (ctl : Controller) : Controller :=
  if run_dynamic_toll then
    let ctl1 := if ctl.dynamic_toll_iter > 0 ∧ dynamic_toll_change = 0 then
        { ctl with stop_dynamic_toll := true }
      else ctl
    if ctl1.stop_dynamic_toll = false then
      { ctl1 with dynamic_toll_iter := ctl1.dynamic_toll_iter + 1 }
    else ctl1
  else ctl

/-- The per-period loop body of `PrepareNetwork.run` (lines 77-93), iterated
over the time periods: conditional `_create_class_attributes`, then
`_set_tolls`, then the remaining per-period steps (`_set_vdf_attributes`,
`_set_link_modes`, `_calc_link_skim_lengths`, `_calc_link_class_costs`,
`_calc_total_flow`), which never touch the controller's dynamic-toll state
nor `dynamic_toll_change` and are abstracted as `rest`.  Returns the updated
per-period networks, the accumulated `dynamic_toll_change`, and the list of
periods in which `_create_class_attributes` was invoked. -/
def runPeriods (cfg : TollsConfig) (bridge_rows full_rows : List TollRow)
    (apply_msa : Bool) (rest : List Link → List Link) (ctl : Controller) :
    List (String × List Link) → List (String × List Link) × ℕ × List String
  | [] => ([], 0, [])
  | (time, links) :: more =>
    let links0 := if ctl.iteration = 0 ∧ ctl.dynamic_toll_iter = 0 then
        links.map (createClassAttributes cfg.run_dynamic_toll apply_msa)
      else links
    let creates0 : List String :=
      if ctl.iteration = 0 ∧ ctl.dynamic_toll_iter = 0 then [time] else []
    let step := setTolls cfg bridge_rows full_rows time ctl.iteration
      ctl.dynamic_toll_iter links0
    let rec2 := runPeriods cfg bridge_rows full_rows apply_msa rest ctl more
    ((time, rest step.1) :: rec2.1, step.2.1 + rec2.2.1, creates0 ++ rec2.2.2)

/-- The result of one `PrepareNetwork.run` call. -/
structure RunResult where
  controller : Controller
  networks : List (String × List Link)
  dynamic_toll_change : ℕ
  create_calls : List String

/-- `PrepareNetwork.run`: reset `dynamic_toll_change`, process every time
period, then (when `run_dynamic_toll`) perform the run-level dynamic-toll
state update exactly once. -/
def run (cfg : TollsConfig) (bridge_rows full_rows : List TollRow)
    (apply_msa : Bool) (rest : List Link → List Link) (ctl : Controller)
    (nets : List (String × List Link)) : RunResult :=
  let r := runPeriods cfg bridge_rows full_rows apply_msa rest ctl nets
  { controller := dynTollRunUpdate cfg.run_dynamic_toll r.2.1 ctl
    networks := r.1
    dynamic_toll_change := r.2.1
    create_calls := r.2.2 }

/-- Errors raised by `PrepareNetwork.validate_inputs`: `FileNotFoundError`
with the path, or `FileFormatError` carrying the list of missing columns
(the raised message renders exactly this list:
`"Tolls file missing {len(missing)} columns: {', '.join(missing)}"`). -/
inductive TollFileErr where
  | fileNotFound (path : String)
  | fileFormat (missing : List String)
deriving DecidableEq

/-- The required toll-file columns of `validate_inputs`: `fac_index` plus
`toll<period.lower()>_<vehicle>` for every time period and source vehicle
group, in loop order. -/
def requiredTollColumns (time_periods src_veh_groups : List String) : List String :=
  "fac_index" ::
    time_periods.flatMap (fun time => src_veh_groups.map (fun vehicle => tollColName time vehicle))

/-- The header cells of the toll file's first line, stripped
(`set(h.strip() for h in next(toll_file).split(","))`). -/
def parsedHeader (header_line : String) : List String :=
  (splitChars ',' header_line.data).map (fun cs => String.mk (stripChars cs))

/-- `PrepareNetwork.validate_inputs`: fail with `FileNotFoundError` when the
toll file does not exist; otherwise collect every required column absent from
the header and fail with `FileFormatError` enumerating all of them.  The
function touches no network data (it runs before any graph mutation). -/
def validate_inputs (file_exists : Bool) (toll_file_path header_line : String)
    (time_periods src_veh_groups : List String) : Except TollFileErr Unit :=
  if file_exists = false then
    .error (.fileNotFound toll_file_path)
  else
    let header := parsedHeader header_line
    let missing := (requiredTollColumns time_periods src_veh_groups).filter
      (fun column => decide (column ∉ header))
    if missing.isEmpty then .ok () else .error (.fileFormat missing)

/-- An assignment class as configured under `highway.classes`, restricted to
the fields used by the mode-creation loop of `_set_link_modes`. -/
structure AssignClass where
  name : String
  mode_code : String
  excluded_links : List String
deriving DecidableEq

/-- Python `repr` of a list of strings, as interpolated into the duplicated
mode-code error message. -/
def pyStrListRepr (xs : List String) : String :=
  "[" ++ String.intercalate ", " (xs.map (fun s => "\x27" ++ s ++ "\x27")) ++ "]"

/-- The exception message of `_set_link_modes` for duplicated mode codes with
different excluded links (lines 383-387). -/
def dupModeCodeMsg (mode_code : String) (ex_links1 ex_links2 : List String) : String :=
  "config error: highway.classes, duplicated mode codes (\x27" ++ mode_code ++
    "\x27) with different excluded links: " ++ pyStrListRepr ex_links1 ++ " and " ++
    pyStrListRepr ex_links2

/-- The mode-creation loop of `_set_link_modes` (lines 374-391): walk the
classes, keeping the `mode_excluded_links` dict; a repeated mode code with
identical `excluded_links` is skipped, a repeated code with different
`excluded_links` raises; otherwise a mode is created (recorded as
`(mode_code, description)` with `description = assign_class.name`). -/
def createClassModesAux : List AssignClass → List (String × List String) →
    List (String × String) → Except String (List (String × String))
  | [], _, created => .ok created.reverse
  | assign_class :: more, mode_excluded_links, created =>
    match mode_excluded_links.lookup assign_class.mode_code with
    | some ex_links1 =>
      if assign_class.excluded_links ≠ ex_links1 then
        .error (dupModeCodeMsg assign_class.mode_code ex_links1 assign_class.excluded_links)
      else
        createClassModesAux more mode_excluded_links created
    | none =>
      createClassModesAux more
        ((assign_class.mode_code, assign_class.excluded_links) :: mode_excluded_links)
        ((assign_class.mode_code, assign_class.name) :: created)

/-- Entry point for the mode-creation loop of `_set_link_modes`. -/
def createClassModes (classes : List AssignClass) : Except String (List (String × String)) :=
  createClassModesAux classes [] []

/-- Whether `pat` occurs at the start of `s` (character lists). -/
def charsHasPre : List Char → List Char → Bool
  | [], _ => true
  | _ :: _, [] => false
  | a :: as, b :: bs => a = b && charsHasPre as bs

/-- Whether `pat` occurs contiguously anywhere in `s` (character lists). -/
def charsContains (pat : List Char) : List Char → Bool
  | [] => charsHasPre pat []
  | c :: cs => charsHasPre pat (c :: cs) || charsContains pat cs

/-- Whether the string `pat` occurs contiguously in the string `s`. -/
def strContainsSub (s pat : String) : Bool := charsContains pat.data s.data

/-! ### Helper lemmas: the dynamic adjustment group loop -/

theorem updateGroupToll_length (m : ℚ) (ir : ℤ) (l : Link) (d : String) :
    (updateGroupToll m ir l d).length = l.length := by
  by_cases h : increasedToll ir l d > m <;> simp [updateGroupToll, h]

theorem updateGroupToll_tollbooth (m : ℚ) (ir : ℤ) (l : Link) (d : String) :
    (updateGroupToll m ir l d).tollbooth = l.tollbooth := by
  by_cases h : increasedToll ir l d > m <;> simp [updateGroupToll, h]

theorem updateGroupToll_bridgetoll (m : ℚ) (ir : ℤ) (l : Link) (d : String) :
    (updateGroupToll m ir l d).bridgetoll = l.bridgetoll := by
  by_cases h : increasedToll ir l d > m <;> simp [updateGroupToll, h]

theorem updateGroupToll_flag (m : ℚ) (ir : ℤ) (l : Link) (d : String) :
    (updateGroupToll m ir l d).update_dynamic_toll =
      if increasedToll ir l d > m then 0 else l.update_dynamic_toll := by
  by_cases h : increasedToll ir l d > m <;> simp [updateGroupToll, h]

theorem updateGroupToll_valuetoll_ne (m : ℚ) (ir : ℤ) (l : Link) (d x : String)
    (hx : x ≠ d) : (updateGroupToll m ir l d).valuetoll x = l.valuetoll x := by
  by_cases h : increasedToll ir l d > m <;> simp [updateGroupToll, h, hx]

theorem updateGroupToll_valuetoll_self (m : ℚ) (ir : ℤ) (l : Link) (d : String) :
    (updateGroupToll m ir l d).valuetoll d =
      if increasedToll ir l d > m then m * l.length * 100
      else increasedToll ir l d * l.length * 100 := by
  by_cases h : increasedToll ir l d > m <;> simp [updateGroupToll, h]

theorem increasedToll_congr (ir : ℤ) {a b : Link} {x : String}
    (h1 : a.valuetoll x = b.valuetoll x) (h2 : a.length = b.length) :
    increasedToll ir a x = increasedToll ir b x := by
  simp [increasedToll, h1, h2]

theorem dfold_length (m : ℚ) (ir : ℤ) :
    ∀ (ds : List String) (l : Link),
      (ds.foldl (updateGroupToll m ir) l).length = l.length := by
  intro ds
  induction ds with
  | nil => intro l; rfl
  | cons d ds ih => intro l; rw [List.foldl_cons, ih, updateGroupToll_length]

theorem dfold_tollbooth (m : ℚ) (ir : ℤ) :
    ∀ (ds : List String) (l : Link),
      (ds.foldl (updateGroupToll m ir) l).tollbooth = l.tollbooth := by
  intro ds
  induction ds with
  | nil => intro l; rfl
  | cons d ds ih => intro l; rw [List.foldl_cons, ih, updateGroupToll_tollbooth]

theorem dfold_bridgetoll (m : ℚ) (ir : ℤ) :
    ∀ (ds : List String) (l : Link),
      (ds.foldl (updateGroupToll m ir) l).bridgetoll = l.bridgetoll := by
  intro ds
  induction ds with
  | nil => intro l; rfl
  | cons d ds ih => intro l; rw [List.foldl_cons, ih, updateGroupToll_bridgetoll]

theorem dfold_valuetoll_notmem (m : ℚ) (ir : ℤ) :
    ∀ (ds : List String) (l : Link) (x : String), x ∉ ds →
      (ds.foldl (updateGroupToll m ir) l).valuetoll x = l.valuetoll x := by
  intro ds
  induction ds with
  | nil => intro l x _; rfl
  | cons d ds ih =>
    intro l x hx
    rw [List.foldl_cons, ih _ x (fun h => hx (List.mem_cons_of_mem _ h)),
      updateGroupToll_valuetoll_ne]
    exact fun h => hx (h ▸ List.mem_cons_self _ _)

theorem dfold_valuetoll_mem (m : ℚ) (ir : ℤ) :
    ∀ (ds : List String) (l : Link) (x : String), ds.Nodup → x ∈ ds →
      (ds.foldl (updateGroupToll m ir) l).valuetoll x =
        if increasedToll ir l x > m then m * l.length * 100
        else increasedToll ir l x * l.length * 100 := by
  intro ds
  induction ds with
  | nil => intro l x _ hx; cases hx
  | cons d ds ih =>
    intro l x hnd hx
    obtain ⟨hdnot, hnd'⟩ := List.nodup_cons.mp hnd
    rw [List.foldl_cons]
    rcases List.mem_cons.mp hx with rfl | hx'
    · rw [dfold_valuetoll_notmem m ir ds _ x hdnot, updateGroupToll_valuetoll_self]
    · have hne : x ≠ d := by rintro rfl; exact hdnot hx'
      rw [ih _ x hnd' hx',
        increasedToll_congr ir (updateGroupToll_valuetoll_ne m ir l d x hne)
          (updateGroupToll_length m ir l d),
        updateGroupToll_length]

theorem dfold_flag_zero (m : ℚ) (ir : ℤ) :
    ∀ (ds : List String) (l : Link), l.update_dynamic_toll = 0 →
      (ds.foldl (updateGroupToll m ir) l).update_dynamic_toll = 0 := by
  intro ds
  induction ds with
  | nil => intro l h; exact h
  | cons d ds ih =>
    intro l h
    rw [List.foldl_cons]
    apply ih
    rw [updateGroupToll_flag]
    split <;> simp [h]

theorem dfold_flag (m : ℚ) (ir : ℤ) :
    ∀ (ds : List String) (l : Link), ds.Nodup →
      (ds.foldl (updateGroupToll m ir) l).update_dynamic_toll =
        if ∃ d ∈ ds, increasedToll ir l d > m then 0 else l.update_dynamic_toll := by
  intro ds
  induction ds with
  | nil => intro l _; simp
  | cons d ds ih =>
    intro l hnd
    obtain ⟨hdnot, hnd'⟩ := List.nodup_cons.mp hnd
    rw [List.foldl_cons]
    by_cases hd : increasedToll ir l d > m
    · have h0 : (updateGroupToll m ir l d).update_dynamic_toll = 0 := by
        rw [updateGroupToll_flag, if_pos hd]
      rw [dfold_flag_zero m ir ds _ h0, if_pos ⟨d, List.mem_cons_self _ _, hd⟩]
    · have hflag : (updateGroupToll m ir l d).update_dynamic_toll = l.update_dynamic_toll := by
        rw [updateGroupToll_flag, if_neg hd]
      have hcong : ∀ e ∈ ds, increasedToll ir (updateGroupToll m ir l d) e =
          increasedToll ir l e := by
        intro e he
        exact increasedToll_congr ir
          (updateGroupToll_valuetoll_ne m ir l d e (by rintro rfl; exact hdnot he))
          (updateGroupToll_length m ir l d)
      rw [ih _ hnd']
      by_cases hrest : ∃ e ∈ ds, increasedToll ir l e > m
      · obtain ⟨e, he, hpe⟩ := hrest
        rw [if_pos ⟨e, he, by rwa [hcong e he]⟩,
          if_pos ⟨e, List.mem_cons_of_mem _ he, hpe⟩]
      · rw [if_neg, if_neg, hflag]
        · rintro ⟨e, he, hpe⟩
          rcases List.mem_cons.mp he with rfl | he'
          · exact hd hpe
          · exact hrest ⟨e, he', hpe⟩
        · rintro ⟨e, he, hpe⟩
          exact hrest ⟨e, he, by rwa [hcong e he] at hpe⟩

theorem foldl_on_snd (f : Link → String → Link) :
    ∀ (ps : List (String × String)) (l : Link),
      ps.foldl (fun lk sd => f lk sd.2) l = (ps.map Prod.snd).foldl f l := by
  intro ps
  induction ps with
  | nil => intro l; rfl
  | cons p ps ih => intro l; rw [List.map_cons, List.foldl_cons, List.foldl_cons, ih]

theorem zip_map_snd_sublist : ∀ (as bs : List String),
    ((as.zip bs).map Prod.snd).Sublist bs := by
  intro as
  induction as with
  | nil => intro bs; simp
  | cons a as ih =>
    intro bs
    cases bs with
    | nil => simp
    | cons b bs => simpa using List.Sublist.cons₂ b (ih bs)

theorem pyRound_ge_one {x : ℚ} (hx : 1 < x) : 1 ≤ pyRound x := by
  have hf : 1 ≤ ⌊x⌋ := by
    rw [Int.le_floor]
    exact_mod_cast hx.le
  simp only [pyRound]
  split_ifs <;> omega

theorem stored_per_mile {L : ℚ} (hL : L ≠ 0) (x : ℚ) : x * L * 100 / L / 100 = x := by
  field_simp
  ring

theorem dynAdjustLink_flag_ne_one (st m : ℚ) (ss ds : List String) (l : Link)
    (h : l.update_dynamic_toll ≠ 1) :
    dynAdjustLink st m ss ds l = (l, false) := by
  unfold dynAdjustLink
  split
  · rw [if_neg (fun hc => h hc.2)]
  · rfl

/-! ### Helper lemmas: the static / initialization toll loops -/

/-- The last source-group name paired with destination `x` in a zipped
(src, dst) pair list: the loop's final write to an attribute wins. -/
def lastSrcFor (x : String) : List (String × String) → Option String
  | [] => none
  | sd :: rest =>
    match lastSrcFor x rest with
    | some s => some s
    | none => if sd.2 = x then some sd.1 else none

theorem lastSrcFor_cons (x : String) (sd : String × String) (ps : List (String × String)) :
    lastSrcFor x (sd :: ps) =
      match lastSrcFor x ps with
      | some s => some s
      | none => if sd.2 = x then some sd.1 else none := rfl

theorem lastSrcFor_eq_none (x : String) :
    ∀ ps : List (String × String), x ∉ ps.map Prod.snd → lastSrcFor x ps = none := by
  intro ps
  induction ps with
  | nil => intro _; rfl
  | cons p ps ih =>
    intro hx
    have h1 : lastSrcFor x ps = none := ih (fun h => hx (List.mem_cons_of_mem _ h))
    have h2 : p.2 ≠ x := fun h => hx (by rw [List.map_cons, ← h]; exact List.mem_cons_self _ _)
    rw [lastSrcFor_cons, h1]
    simp [h2]

theorem lastSrcFor_of_mem (x s : String) :
    ∀ ps : List (String × String), (ps.map Prod.snd).Nodup → (s, x) ∈ ps →
      lastSrcFor x ps = some s := by
  intro ps
  induction ps with
  | nil => intro _ h; cases h
  | cons p ps ih =>
    intro hnd hmem
    rw [List.map_cons] at hnd
    obtain ⟨hnot, hnd'⟩ := List.nodup_cons.mp hnd
    rcases List.mem_cons.mp hmem with rfl | hmem'
    · rw [lastSrcFor_cons, lastSrcFor_eq_none x ps hnot]
      simp
    · rw [lastSrcFor_cons, ih hnd' hmem']

theorem bfold_preserved (row : TollRow) (tp : String) :
    ∀ (ps : List (String × String)) (l : Link),
      (ps.foldl (setBridgeToll row tp) l).tollbooth = l.tollbooth ∧
      (ps.foldl (setBridgeToll row tp) l).tollseg = l.tollseg ∧
      (ps.foldl (setBridgeToll row tp) l).useclass = l.useclass ∧
      (ps.foldl (setBridgeToll row tp) l).length = l.length ∧
      (ps.foldl (setBridgeToll row tp) l).vc = l.vc ∧
      (ps.foldl (setBridgeToll row tp) l).update_dynamic_toll = l.update_dynamic_toll ∧
      (ps.foldl (setBridgeToll row tp) l).valuetoll = l.valuetoll := by
  intro ps
  induction ps with
  | nil => intro l; exact ⟨rfl, rfl, rfl, rfl, rfl, rfl, rfl⟩
  | cons p ps ih => intro l; exact ih (setBridgeToll row tp l p)

theorem vfold_preserved (row : TollRow) (tp : String) :
    ∀ (ps : List (String × String)) (l : Link),
      (ps.foldl (setValueToll row tp) l).tollbooth = l.tollbooth ∧
      (ps.foldl (setValueToll row tp) l).tollseg = l.tollseg ∧
      (ps.foldl (setValueToll row tp) l).useclass = l.useclass ∧
      (ps.foldl (setValueToll row tp) l).length = l.length ∧
      (ps.foldl (setValueToll row tp) l).vc = l.vc ∧
      (ps.foldl (setValueToll row tp) l).update_dynamic_toll = l.update_dynamic_toll ∧
      (ps.foldl (setValueToll row tp) l).bridgetoll = l.bridgetoll := by
  intro ps
  induction ps with
  | nil => intro l; exact ⟨rfl, rfl, rfl, rfl, rfl, rfl, rfl⟩
  | cons p ps ih => intro l; exact ih (setValueToll row tp l p)

theorem zfold_preserved :
    ∀ (ps : List (String × String)) (l : Link),
      (ps.foldl initValueToll l).tollbooth = l.tollbooth ∧
      (ps.foldl initValueToll l).tollseg = l.tollseg ∧
      (ps.foldl initValueToll l).useclass = l.useclass ∧
      (ps.foldl initValueToll l).length = l.length ∧
      (ps.foldl initValueToll l).vc = l.vc ∧
      (ps.foldl initValueToll l).update_dynamic_toll = l.update_dynamic_toll ∧
      (ps.foldl initValueToll l).bridgetoll = l.bridgetoll := by
  intro ps
  induction ps with
  | nil => intro l; exact ⟨rfl, rfl, rfl, rfl, rfl, rfl, rfl⟩
  | cons p ps ih => intro l; exact ih (initValueToll l p)

theorem bfold_bridgetoll (row : TollRow) (tp : String) :
    ∀ (ps : List (String × String)) (l : Link) (x : String),
      (ps.foldl (setBridgeToll row tp) l).bridgetoll x =
        match lastSrcFor x ps with
        | some s => row.rates (tollColName tp s) * 100
        | none => l.bridgetoll x := by
  intro ps
  induction ps with
  | nil => intro l x; rfl
  | cons p ps ih =>
    intro l x
    rw [List.foldl_cons, ih, lastSrcFor_cons]
    cases h : lastSrcFor x ps with
    | some s => rfl
    | none =>
      show (setBridgeToll row tp l p).bridgetoll x = _
      simp only [setBridgeToll]
      by_cases hx : x = p.2
      · rw [if_pos hx, if_pos hx.symm]
      · rw [if_neg hx, if_neg (fun hh => hx hh.symm)]

theorem vfold_valuetoll (row : TollRow) (tp : String) :
    ∀ (ps : List (String × String)) (l : Link) (x : String),
      (ps.foldl (setValueToll row tp) l).valuetoll x =
        match lastSrcFor x ps with
        | some s => row.rates (tollColName tp s) * l.length * 100
        | none => l.valuetoll x := by
  intro ps
  induction ps with
  | nil => intro l x; rfl
  | cons p ps ih =>
    intro l x
    rw [List.foldl_cons, ih, lastSrcFor_cons]
    cases h : lastSrcFor x ps with
    | some s => rfl
    | none =>
      show (setValueToll row tp l p).valuetoll x = _
      simp only [setValueToll]
      by_cases hx : x = p.2
      · rw [if_pos hx, if_pos hx.symm]
      · rw [if_neg hx, if_neg (fun hh => hx hh.symm)]

theorem zfold_valuetoll :
    ∀ (ps : List (String × String)) (l : Link) (x : String),
      (ps.foldl initValueToll l).valuetoll x =
        match lastSrcFor x ps with
        | some _ => 0
        | none => l.valuetoll x := by
  intro ps
  induction ps with
  | nil => intro l x; rfl
  | cons p ps ih =>
    intro l x
    rw [List.foldl_cons, ih, lastSrcFor_cons]
    cases h : lastSrcFor x ps with
    | some s => rfl
    | none =>
      show (initValueToll l p).valuetoll x = _
      simp only [initValueToll]
      by_cases hx : x = p.2
      · rw [if_pos hx, if_pos hx.symm]
      · rw [if_neg hx, if_neg (fun hh => hx hh.symm)]

theorem dynAdjustSeq_frozen (st m : ℚ) (ss ds : List String) :
    ∀ (vcs : List ℚ) (l : Link), l.update_dynamic_toll = 0 →
      (dynAdjustSeq st m ss ds vcs l).valuetoll = l.valuetoll ∧
      (dynAdjustSeq st m ss ds vcs l).bridgetoll = l.bridgetoll ∧
      (dynAdjustSeq st m ss ds vcs l).update_dynamic_toll = 0 := by
  intro vcs
  induction vcs with
  | nil => intro l h; exact ⟨rfl, rfl, h⟩
  | cons v vcs ih =>
    intro l h
    have hstep : (dynAdjustLink st m ss ds { l with vc := v }).1 = { l with vc := v } := by
      rw [dynAdjustLink_flag_ne_one st m ss ds { l with vc := v }
        (by show l.update_dynamic_toll ≠ 1; rw [h]; norm_num)]
    show (dynAdjustSeq st m ss ds (v :: vcs) l).valuetoll = l.valuetoll ∧ _ ∧ _
    unfold dynAdjustSeq
    rw [List.foldl_cons, hstep]
    exact ih { l with vc := v } h

theorem dynAdjustLink_not_updating (st m : ℚ) (ss ds : List String) (l : Link)
    (h : ¬((l.tollbooth > 0 ∧ l.tollbooth ≥ st) ∧ (l.vc > 1 ∧ l.update_dynamic_toll = 1))) :
    dynAdjustLink st m ss ds l = (l, false) := by
  unfold dynAdjustLink
  by_cases h1 : l.tollbooth > 0 ∧ l.tollbooth ≥ st
  · rw [if_pos h1, if_neg (fun h2 => h ⟨h1, h2⟩)]
  · rw [if_neg h1]

theorem dynAdjustLink_updating (st m : ℚ) (ss ds : List String) (l : Link)
    (h1 : l.tollbooth > 0 ∧ l.tollbooth ≥ st) (h2 : l.vc > 1 ∧ l.update_dynamic_toll = 1) :
    dynAdjustLink st m ss ds l =
      (((ss.zip ds).map Prod.snd).foldl (updateGroupToll m (pyRound l.vc)) l, true) := by
  unfold dynAdjustLink
  rw [if_pos h1, if_pos h2, foldl_on_snd]

/-! ### Claim theorems -/

/-- C1: under the dynamic policy's adjustment phase, for a link with
`@tollbooth >= valuetoll_start_tollbooth_code` (the threshold being positive,
so the code's `@tollbooth > 0` guard also holds), `@vc > 1` and
`@update_dynamic_toll == 1`, each destination vehicle group's stored value
toll becomes `max_dynamic_valuetoll * length * 100` with the flag cleared to
0 when the candidate `(@valuetoll/length/100) + 0.25 * round(@vc)` exceeds
`max_dynamic_valuetoll`, and `candidate * length * 100` otherwise, the flag
remaining 1 when no group's candidate exceeds the maximum. -/
theorem c1_dynamic_adjustment_formula
    (valuetoll_start maxVT : ℚ) (srcs dsts : List String) (l : Link) (dst : String)
    (hstart : 0 < valuetoll_start) (hb : valuetoll_start ≤ l.tollbooth)
    (hvc : 1 < l.vc) (hflag : l.update_dynamic_toll = 1)
    (hnd : dsts.Nodup) (hdst : dst ∈ (srcs.zip dsts).map Prod.snd) :
    (increasedToll (pyRound l.vc) l dst > maxVT →
        (dynAdjustLink valuetoll_start maxVT srcs dsts l).1.valuetoll dst =
            maxVT * l.length * 100 ∧
          (dynAdjustLink valuetoll_start maxVT srcs dsts l).1.update_dynamic_toll = 0) ∧
      (¬ increasedToll (pyRound l.vc) l dst > maxVT →
        (dynAdjustLink valuetoll_start maxVT srcs dsts l).1.valuetoll dst =
          increasedToll (pyRound l.vc) l dst * l.length * 100) ∧
      ((∀ d ∈ (srcs.zip dsts).map Prod.snd, ¬ increasedToll (pyRound l.vc) l d > maxVT) →
        (dynAdjustLink valuetoll_start maxVT srcs dsts l).1.update_dynamic_toll = 1) := by
  have houter : l.tollbooth > 0 ∧ l.tollbooth ≥ valuetoll_start :=
    ⟨lt_of_lt_of_le hstart hb, hb⟩
  have hnd' : ((srcs.zip dsts).map Prod.snd).Nodup :=
    (zip_map_snd_sublist srcs dsts).nodup hnd
  have hfold := dynAdjustLink_updating valuetoll_start maxVT srcs dsts l houter ⟨hvc, hflag⟩
  refine ⟨fun hc => ⟨?_, ?_⟩, fun hc => ?_, fun hall => ?_⟩
  · rw [hfold]
    rw [dfold_valuetoll_mem maxVT (pyRound l.vc) _ l dst hnd' hdst, if_pos hc]
  · rw [hfold]
    rw [dfold_flag maxVT (pyRound l.vc) _ l hnd', if_pos ⟨dst, hdst, hc⟩]
  · rw [hfold]
    rw [dfold_valuetoll_mem maxVT (pyRound l.vc) _ l dst hnd' hdst, if_neg hc]
  · rw [hfold]
    rw [dfold_flag maxVT (pyRound l.vc) _ l hnd', if_neg, hflag]
    rintro ⟨d, hd, hpd⟩
    exact hall d hd hpd

/-- Concrete link for the C1 scenario: vc = 1.4, stored value toll 100 cents
(per-mile $0.50 over length 2), flag set. -/
def lC1 : Link :=
  { tollbooth := 2, tollseg := 0, useclass := 0, length := 2, vc := 7/5,
    update_dynamic_toll := 1, bridgetoll := fun _ => 0, valuetoll := fun _ => 100 }

/-- Witness for C1, the spec's scenario: with max 1.00 the new stored value
toll is 150 and the flag remains set. -/
theorem c1_witness :
    (dynAdjustLink 2 1 ["da"] ["da"] lC1).1.valuetoll "da" = 150 ∧
      (dynAdjustLink 2 1 ["da"] ["da"] lC1).1.update_dynamic_toll = 1 := by
  have h := c1_dynamic_adjustment_formula 2 1 ["da"] ["da"] lC1 "da"
    (by norm_num) (by norm_num [lC1]) (by norm_num [lC1]) (by norm_num [lC1])
    (by decide) (by decide)
  exact ⟨(h.2.1 (by norm_num [increasedToll, VALUETOLL_INCREMENT, lC1, pyRound])).trans
      (by norm_num [increasedToll, VALUETOLL_INCREMENT, lC1, pyRound]),
    h.2.2 (by norm_num [increasedToll, VALUETOLL_INCREMENT, lC1, pyRound])⟩

/-- C2: under the dynamic policy, a value-toll link's per-mile value toll
never decreases in an adjustment call and stays at or below the configured
maximum (so it is non-decreasing across successive calls until capped); and
once `@update_dynamic_toll` is 0, any further sequence of adjustment calls
(with arbitrary intervening solver-written `@vc` values) leaves every
value-toll field unchanged and the flag at 0. -/
theorem c2_dynamic_monotone_frozen
    (valuetoll_start maxVT : ℚ) (srcs dsts : List String) (l : Link) (dst : String)
    (hnd : dsts.Nodup) (hdst : dst ∈ (srcs.zip dsts).map Prod.snd)
    (hlen : 0 < l.length)
    (hinv : l.valuetoll dst / l.length / 100 ≤ maxVT) :
    (l.valuetoll dst / l.length / 100 ≤
        (dynAdjustLink valuetoll_start maxVT srcs dsts l).1.valuetoll dst /
          (dynAdjustLink valuetoll_start maxVT srcs dsts l).1.length / 100) ∧
      ((dynAdjustLink valuetoll_start maxVT srcs dsts l).1.valuetoll dst /
          (dynAdjustLink valuetoll_start maxVT srcs dsts l).1.length / 100 ≤ maxVT) ∧
      (l.update_dynamic_toll = 0 → ∀ (vcs : List ℚ) (x : String),
        (dynAdjustSeq valuetoll_start maxVT srcs dsts vcs l).valuetoll x = l.valuetoll x ∧
          (dynAdjustSeq valuetoll_start maxVT srcs dsts vcs l).update_dynamic_toll = 0) := by
  have hfrozen : l.update_dynamic_toll = 0 → ∀ (vcs : List ℚ) (x : String),
      (dynAdjustSeq valuetoll_start maxVT srcs dsts vcs l).valuetoll x = l.valuetoll x ∧
        (dynAdjustSeq valuetoll_start maxVT srcs dsts vcs l).update_dynamic_toll = 0 := by
    intro h0 vcs x
    obtain ⟨hv, _, hf⟩ := dynAdjustSeq_frozen valuetoll_start maxVT srcs dsts vcs l h0
    exact ⟨congrFun hv x, hf⟩
  by_cases helig : (l.tollbooth > 0 ∧ l.tollbooth ≥ valuetoll_start) ∧
      (l.vc > 1 ∧ l.update_dynamic_toll = 1)
  · have hfold := dynAdjustLink_updating valuetoll_start maxVT srcs dsts l helig.1 helig.2
    have hnd' : ((srcs.zip dsts).map Prod.snd).Nodup :=
      (zip_map_snd_sublist srcs dsts).nodup hnd
    have hlen1 : (dynAdjustLink valuetoll_start maxVT srcs dsts l).1.length = l.length := by
      rw [hfold]; exact dfold_length _ _ _ _
    have hval := dfold_valuetoll_mem maxVT (pyRound l.vc)
      ((srcs.zip dsts).map Prod.snd) l dst hnd' hdst
    have hir : (1 : ℚ) ≤ ((pyRound l.vc : ℤ) : ℚ) := by
      exact_mod_cast pyRound_ge_one helig.2.1
    have hcand : l.valuetoll dst / l.length / 100 ≤ increasedToll (pyRound l.vc) l dst := by
      simp only [increasedToll, VALUETOLL_INCREMENT]
      nlinarith
    refine ⟨?_, ?_, hfrozen⟩
    · rw [hfold] at hlen1 ⊢
      rw [hlen1, hval]
      by_cases hc : increasedToll (pyRound l.vc) l dst > maxVT
      · rw [if_pos hc, stored_per_mile hlen.ne' maxVT]
        exact hinv
      · rw [if_neg hc, stored_per_mile hlen.ne']
        exact hcand
    · rw [hfold] at hlen1 ⊢
      rw [hlen1, hval]
      by_cases hc : increasedToll (pyRound l.vc) l dst > maxVT
      · rw [if_pos hc, stored_per_mile hlen.ne' maxVT]
      · rw [if_neg hc, stored_per_mile hlen.ne']
        exact not_lt.mp hc
  · have hid := dynAdjustLink_not_updating valuetoll_start maxVT srcs dsts l helig
    rw [hid]
    exact ⟨le_refl _, hinv, hfrozen⟩

/-- Concrete link for the C2 witness: per-mile value toll 0.5 ≤ max 1, flag set. -/
def lC2 : Link :=
  { tollbooth := 2, tollseg := 0, useclass := 0, length := 1, vc := 3/2,
    update_dynamic_toll := 1, bridgetoll := fun _ => 0, valuetoll := fun _ => 50 }

/-- Witness for C2 at a concrete eligible link. -/
theorem c2_witness :
    lC2.valuetoll "da" / lC2.length / 100 ≤
      (dynAdjustLink 2 1 ["da"] ["da"] lC2).1.valuetoll "da" /
        (dynAdjustLink 2 1 ["da"] ["da"] lC2).1.length / 100 ∧
      (dynAdjustLink 2 1 ["da"] ["da"] lC2).1.valuetoll "da" /
        (dynAdjustLink 2 1 ["da"] ["da"] lC2).1.length / 100 ≤ 1 := by
  have h := c2_dynamic_monotone_frozen 2 1 ["da"] ["da"] lC2 "da"
    (by decide) (by decide) (by norm_num [lC2]) (by norm_num [lC2])
  exact ⟨h.1, h.2.1⟩

/-- C10: the adjustment-phase eligibility test (`@vc > 1` and
`@update_dynamic_toll == 1`) is evaluated once per link before the
vehicle-group loop, so in the pass where group `dj`'s candidate exceeds the
cap (clearing the flag mid-loop), another group `dk` is still updated in
the same pass; if `dk`'s candidate stayed strictly below the cap, `dk` is
then frozen forever at a per-mile value strictly below the cap. -/
theorem c10_midloop_clear_still_updates
    (valuetoll_start maxVT : ℚ) (srcs dsts : List String) (l : Link) (dj dk : String)
    (hnd : dsts.Nodup)
    (hj : dj ∈ (srcs.zip dsts).map Prod.snd) (hk : dk ∈ (srcs.zip dsts).map Prod.snd)
    (houter : l.tollbooth > 0 ∧ l.tollbooth ≥ valuetoll_start)
    (hvc : 1 < l.vc) (hflag : l.update_dynamic_toll = 1) (hlen : 0 < l.length)
    (hcj : increasedToll (pyRound l.vc) l dj > maxVT)
    (hck : increasedToll (pyRound l.vc) l dk < maxVT) :
    ((dynAdjustLink valuetoll_start maxVT srcs dsts l).1.valuetoll dk =
        increasedToll (pyRound l.vc) l dk * l.length * 100) ∧
      ((dynAdjustLink valuetoll_start maxVT srcs dsts l).1.valuetoll dk /
          (dynAdjustLink valuetoll_start maxVT srcs dsts l).1.length / 100 < maxVT) ∧
      ((dynAdjustLink valuetoll_start maxVT srcs dsts l).1.update_dynamic_toll = 0) ∧
      (∀ vcs : List ℚ,
        (dynAdjustSeq valuetoll_start maxVT srcs dsts vcs
            (dynAdjustLink valuetoll_start maxVT srcs dsts l).1).valuetoll dk =
          (dynAdjustLink valuetoll_start maxVT srcs dsts l).1.valuetoll dk ∧
        (dynAdjustSeq valuetoll_start maxVT srcs dsts vcs
            (dynAdjustLink valuetoll_start maxVT srcs dsts l).1).update_dynamic_toll = 0) := by
  have hnd' : ((srcs.zip dsts).map Prod.snd).Nodup :=
    (zip_map_snd_sublist srcs dsts).nodup hnd
  have hfold := dynAdjustLink_updating valuetoll_start maxVT srcs dsts l houter ⟨hvc, hflag⟩
  have hval : (dynAdjustLink valuetoll_start maxVT srcs dsts l).1.valuetoll dk =
      increasedToll (pyRound l.vc) l dk * l.length * 100 := by
    rw [hfold]
    rw [dfold_valuetoll_mem maxVT (pyRound l.vc) _ l dk hnd' hk, if_neg (lt_asymm hck)]
  have hflag0 : (dynAdjustLink valuetoll_start maxVT srcs dsts l).1.update_dynamic_toll = 0 := by
    rw [hfold]
    rw [dfold_flag maxVT (pyRound l.vc) _ l hnd', if_pos ⟨dj, hj, hcj⟩]
  have hlen1 : (dynAdjustLink valuetoll_start maxVT srcs dsts l).1.length = l.length := by
    rw [hfold]; exact dfold_length _ _ _ _
  refine ⟨hval, ?_, hflag0, fun vcs => ?_⟩
  · rw [hval, hlen1, stored_per_mile hlen.ne']
    exact hck
  · obtain ⟨hv, _, hf⟩ := dynAdjustSeq_frozen valuetoll_start maxVT srcs dsts vcs
      (dynAdjustLink valuetoll_start maxVT srcs dsts l).1 hflag0
    exact ⟨congrFun hv dk, hf⟩

theorem lrg_ne_da : ¬("lrg" : String) = "da" := by decide

/-- Concrete link for the C10 witness: group "da" stored at 90 cents per mile
0.9 (candidate 1.15 > max 1), group "lrg" stored at 10 cents per mile 0.1
(candidate 0.35 < max 1). -/
def lC10 : Link :=
  { tollbooth := 2, tollseg := 0, useclass := 0, length := 1, vc := 6/5,
    update_dynamic_toll := 1, bridgetoll := fun _ => 0,
    valuetoll := fun s => if s = "da" then 90 else 10 }

/-- Witness for C10: group "lrg" is still updated (to 35 cents) in the pass
that clears the flag because of group "da". -/
theorem c10_witness :
    (dynAdjustLink 2 1 ["da", "lrg"] ["da", "lrg"] lC10).1.valuetoll "lrg" = 35 ∧
      (dynAdjustLink 2 1 ["da", "lrg"] ["da", "lrg"] lC10).1.update_dynamic_toll = 0 := by
  have h := c10_midloop_clear_still_updates 2 1 ["da", "lrg"] ["da", "lrg"] lC10 "da" "lrg"
    (by decide) (by decide) (by decide)
    (by norm_num [lC10]) (by norm_num [lC10]) (by norm_num [lC10]) (by norm_num [lC10])
    (by norm_num [increasedToll, VALUETOLL_INCREMENT, lC10, pyRound])
    (by norm_num [increasedToll, VALUETOLL_INCREMENT, lC10, pyRound, if_neg lrg_ne_da])
  exact ⟨h.1.trans
    (by norm_num [increasedToll, VALUETOLL_INCREMENT, lC10, pyRound, if_neg lrg_ne_da]),
    h.2.2.1⟩

/-- C5: under the static policy, for a link with nonzero `@tollbooth` the
engine looks up the composite index `@tollbooth*1000 + @tollseg*10 +
@useclass` in the table built by `_get_toll_indices`; on a hit with
`@tollbooth < valuetoll_start_tollbooth_code` each destination group's bridge
toll is set to `rate * 100`, otherwise each value toll is set to
`rate * length * 100` (the other toll family is untouched); on a miss the
link is returned unchanged and only a warning is recorded. -/
theorem c5_static_toll_lookup
    (rows : List TollRow) (time_period : String) (srcs dsts : List String)
    (valuetoll_start : ℚ) (l : Link)
    (hnz : l.tollbooth ≠ 0) (hnd : dsts.Nodup) :
    (getTollIndices rows (pyInt (l.tollbooth * 1000 + l.tollseg * 10 + l.useclass)) = none →
        setStaticTollsLink (getTollIndices rows) time_period srcs dsts valuetoll_start l =
          (l, some (pyInt (l.tollbooth * 1000 + l.tollseg * 10 + l.useclass)))) ∧
      (∀ row, getTollIndices rows (pyInt (l.tollbooth * 1000 + l.tollseg * 10 + l.useclass)) =
          some row →
        (setStaticTollsLink (getTollIndices rows) time_period srcs dsts
            valuetoll_start l).2 = none ∧
          (l.tollbooth < valuetoll_start →
            (∀ sd ∈ srcs.zip dsts,
              (setStaticTollsLink (getTollIndices rows) time_period srcs dsts
                  valuetoll_start l).1.bridgetoll sd.2 =
                row.rates (tollColName time_period sd.1) * 100) ∧
            (setStaticTollsLink (getTollIndices rows) time_period srcs dsts
                valuetoll_start l).1.valuetoll = l.valuetoll) ∧
          (¬ l.tollbooth < valuetoll_start →
            (∀ sd ∈ srcs.zip dsts,
              (setStaticTollsLink (getTollIndices rows) time_period srcs dsts
                  valuetoll_start l).1.valuetoll sd.2 =
                row.rates (tollColName time_period sd.1) * l.length * 100) ∧
            (setStaticTollsLink (getTollIndices rows) time_period srcs dsts
                valuetoll_start l).1.bridgetoll = l.bridgetoll)) := by
  have hnd' : ((srcs.zip dsts).map Prod.snd).Nodup :=
    (zip_map_snd_sublist srcs dsts).nodup hnd
  constructor
  · intro hnone
    simp only [setStaticTollsLink, if_pos hnz, hnone]
  · intro row hrow
    simp only [setStaticTollsLink, if_pos hnz, hrow]
    by_cases hb : l.tollbooth < valuetoll_start
    · rw [if_pos hb]
      refine ⟨rfl, fun _ => ⟨fun sd hsd => ?_, ?_⟩, fun hnb => absurd hb hnb⟩
      · rw [bfold_bridgetoll row time_period _ l sd.2,
          lastSrcFor_of_mem sd.2 sd.1 _ hnd' (by rw [Prod.mk.eta]; exact hsd)]
      · exact (bfold_preserved row time_period (srcs.zip dsts) l).2.2.2.2.2.2
    · rw [if_neg hb]
      refine ⟨rfl, fun hb2 => absurd hb2 hb, fun _ => ⟨fun sd hsd => ?_, ?_⟩⟩
      · rw [vfold_valuetoll row time_period _ l sd.2,
          lastSrcFor_of_mem sd.2 sd.1 _ hnd' (by rw [Prod.mk.eta]; exact hsd)]
      · exact (vfold_preserved row time_period (srcs.zip dsts) l).2.2.2.2.2.2

/-- The spec's toll-table row for the C5 scenario: `fac_index = 1010`,
`tollam_da = 2.50`. -/
def rowC5 : TollRow :=
  { fac_index := 1010, rates := fun c => if c = "tollam_da" then 5/2 else 0 }

/-- Concrete link for the C5 scenario: `tollbooth = 1`, `tollseg = 1`,
`useclass = 0`. -/
def lC5 : Link :=
  { tollbooth := 1, tollseg := 1, useclass := 0, length := 1, vc := 0,
    update_dynamic_toll := 0, bridgetoll := fun _ => 0, valuetoll := fun _ => 0 }

/-- Witness for C5, the spec's scenario: in the AM period the link gets
`bridgetoll_da = 250`. -/
theorem c5_witness :
    (setStaticTollsLink (getTollIndices [rowC5]) "AM" ["da"] ["da"] 11 lC5).1.bridgetoll
      "da" = 250 := by
  have hsome : getTollIndices [rowC5]
      (pyInt (lC5.tollbooth * 1000 + lC5.tollseg * 10 + lC5.useclass)) = some rowC5 := by
    norm_num [getTollIndices, pyInt, lC5, rowC5]
  have h := (c5_static_toll_lookup [rowC5] "AM" ["da"] ["da"] 11 lC5
    (by norm_num [lC5]) (by decide)).2 rowC5 hsome
  have h2 := (h.2.1 (by norm_num [lC5])).1 ("da", "da") (by decide)
  have hcol : tollColName "AM" "da" = "tollam_da" := by decide
  rw [h2, hcol]
  norm_num [rowC5]

theorem bfold_idem (row : TollRow) (tp : String) (ps : List (String × String)) (l : Link) :
    ps.foldl (setBridgeToll row tp) (ps.foldl (setBridgeToll row tp) l) =
      ps.foldl (setBridgeToll row tp) l := by
  have hpres := bfold_preserved row tp ps (ps.foldl (setBridgeToll row tp) l)
  refine Link.ext ?_ ?_ ?_ ?_ ?_ ?_ ?_ ?_
  · exact hpres.1
  · exact hpres.2.1
  · exact hpres.2.2.1
  · exact hpres.2.2.2.1
  · exact hpres.2.2.2.2.1
  · exact hpres.2.2.2.2.2.1
  · funext x
    rw [bfold_bridgetoll row tp ps (ps.foldl (setBridgeToll row tp) l) x]
    cases hls : lastSrcFor x ps with
    | some s => rw [bfold_bridgetoll row tp ps l x, hls]
    | none => rfl
  · exact hpres.2.2.2.2.2.2

theorem vfold_idem (row : TollRow) (tp : String) (ps : List (String × String)) (l : Link) :
    ps.foldl (setValueToll row tp) (ps.foldl (setValueToll row tp) l) =
      ps.foldl (setValueToll row tp) l := by
  have hpres := vfold_preserved row tp ps (ps.foldl (setValueToll row tp) l)
  refine Link.ext ?_ ?_ ?_ ?_ ?_ ?_ ?_ ?_
  · exact hpres.1
  · exact hpres.2.1
  · exact hpres.2.2.1
  · exact hpres.2.2.2.1
  · exact hpres.2.2.2.2.1
  · exact hpres.2.2.2.2.2.1
  · exact hpres.2.2.2.2.2.2
  · funext x
    rw [vfold_valuetoll row tp ps (ps.foldl (setValueToll row tp) l) x]
    cases hls : lastSrcFor x ps with
    | some s =>
      rw [vfold_valuetoll row tp ps l x, hls, (vfold_preserved row tp ps l).2.2.2.1]
    | none => rfl

theorem setStaticTollsLink_eq_zero (ti : ℤ → Option TollRow) (tp : String)
    (ss ds : List String) (st : ℚ) (l : Link) (hz : ¬ l.tollbooth ≠ 0) :
    setStaticTollsLink ti tp ss ds st l = (l, none) := by
  simp only [setStaticTollsLink, if_neg hz]

theorem setStaticTollsLink_eq_none (ti : ℤ → Option TollRow) (tp : String)
    (ss ds : List String) (st : ℚ) (l : Link) (hnz : l.tollbooth ≠ 0)
    (hidx : ti (pyInt (l.tollbooth * 1000 + l.tollseg * 10 + l.useclass)) = none) :
    setStaticTollsLink ti tp ss ds st l =
      (l, some (pyInt (l.tollbooth * 1000 + l.tollseg * 10 + l.useclass))) := by
  simp only [setStaticTollsLink, if_pos hnz, hidx]

theorem setStaticTollsLink_eq_bridge (ti : ℤ → Option TollRow) (tp : String)
    (ss ds : List String) (st : ℚ) (l : Link) (row : TollRow) (hnz : l.tollbooth ≠ 0)
    (hidx : ti (pyInt (l.tollbooth * 1000 + l.tollseg * 10 + l.useclass)) = some row)
    (hb : l.tollbooth < st) :
    setStaticTollsLink ti tp ss ds st l =
      ((ss.zip ds).foldl (setBridgeToll row tp) l, none) := by
  simp only [setStaticTollsLink, if_pos hnz, hidx, if_pos hb]

theorem setStaticTollsLink_eq_value (ti : ℤ → Option TollRow) (tp : String)
    (ss ds : List String) (st : ℚ) (l : Link) (row : TollRow) (hnz : l.tollbooth ≠ 0)
    (hidx : ti (pyInt (l.tollbooth * 1000 + l.tollseg * 10 + l.useclass)) = some row)
    (hb : ¬ l.tollbooth < st) :
    setStaticTollsLink ti tp ss ds st l =
      ((ss.zip ds).foldl (setValueToll row tp) l, none) := by
  simp only [setStaticTollsLink, if_pos hnz, hidx, if_neg hb]

theorem setStaticTollsLink_fst_immut (ti : ℤ → Option TollRow) (tp : String)
    (ss ds : List String) (st : ℚ) (l : Link) :
    (setStaticTollsLink ti tp ss ds st l).1.tollbooth = l.tollbooth ∧
      (setStaticTollsLink ti tp ss ds st l).1.tollseg = l.tollseg ∧
      (setStaticTollsLink ti tp ss ds st l).1.useclass = l.useclass ∧
      (setStaticTollsLink ti tp ss ds st l).1.length = l.length := by
  by_cases hnz : l.tollbooth ≠ 0
  · cases hidx : ti (pyInt (l.tollbooth * 1000 + l.tollseg * 10 + l.useclass)) with
    | none =>
      rw [setStaticTollsLink_eq_none ti tp ss ds st l hnz hidx]
      exact ⟨rfl, rfl, rfl, rfl⟩
    | some row =>
      by_cases hb : l.tollbooth < st
      · rw [setStaticTollsLink_eq_bridge ti tp ss ds st l row hnz hidx hb]
        have h := bfold_preserved row tp (ss.zip ds) l
        exact ⟨h.1, h.2.1, h.2.2.1, h.2.2.2.1⟩
      · rw [setStaticTollsLink_eq_value ti tp ss ds st l row hnz hidx hb]
        have h := vfold_preserved row tp (ss.zip ds) l
        exact ⟨h.1, h.2.1, h.2.2.1, h.2.2.2.1⟩
  · rw [setStaticTollsLink_eq_zero ti tp ss ds st l hnz]
    exact ⟨rfl, rfl, rfl, rfl⟩

theorem setStaticTollsLink_idem (ti : ℤ → Option TollRow) (tp : String)
    (ss ds : List String) (st : ℚ) (l : Link) :
    (setStaticTollsLink ti tp ss ds st (setStaticTollsLink ti tp ss ds st l).1).1 =
      (setStaticTollsLink ti tp ss ds st l).1 := by
  obtain ⟨h1, h2, h3, _⟩ := setStaticTollsLink_fst_immut ti tp ss ds st l
  by_cases hnz : l.tollbooth ≠ 0
  · cases hidx : ti (pyInt (l.tollbooth * 1000 + l.tollseg * 10 + l.useclass)) with
    | none =>
      have hFl : (setStaticTollsLink ti tp ss ds st l).1 = l := by
        rw [setStaticTollsLink_eq_none ti tp ss ds st l hnz hidx]
      rw [hFl]
      exact hFl
    | some row =>
      have hnz2 : (setStaticTollsLink ti tp ss ds st l).1.tollbooth ≠ 0 := by
        rw [h1]; exact hnz
      have hidx2 : ti (pyInt ((setStaticTollsLink ti tp ss ds st l).1.tollbooth * 1000 +
          (setStaticTollsLink ti tp ss ds st l).1.tollseg * 10 +
          (setStaticTollsLink ti tp ss ds st l).1.useclass)) = some row := by
        rw [h1, h2, h3]; exact hidx
      by_cases hb : l.tollbooth < st
      · have hb2 : (setStaticTollsLink ti tp ss ds st l).1.tollbooth < st := by
          rw [h1]; exact hb
        have hF : (setStaticTollsLink ti tp ss ds st l).1 =
            (ss.zip ds).foldl (setBridgeToll row tp) l := by
          rw [setStaticTollsLink_eq_bridge ti tp ss ds st l row hnz hidx hb]
        rw [setStaticTollsLink_eq_bridge ti tp ss ds st
          (setStaticTollsLink ti tp ss ds st l).1 row hnz2 hidx2 hb2]
        show (ss.zip ds).foldl (setBridgeToll row tp)
            (setStaticTollsLink ti tp ss ds st l).1 =
          (setStaticTollsLink ti tp ss ds st l).1
        rw [hF]
        exact bfold_idem row tp (ss.zip ds) l
      · have hb2 : ¬ (setStaticTollsLink ti tp ss ds st l).1.tollbooth < st := by
          rw [h1]; exact hb
        have hF : (setStaticTollsLink ti tp ss ds st l).1 =
            (ss.zip ds).foldl (setValueToll row tp) l := by
          rw [setStaticTollsLink_eq_value ti tp ss ds st l row hnz hidx hb]
        rw [setStaticTollsLink_eq_value ti tp ss ds st
          (setStaticTollsLink ti tp ss ds st l).1 row hnz2 hidx2 hb2]
        show (ss.zip ds).foldl (setValueToll row tp)
            (setStaticTollsLink ti tp ss ds st l).1 =
          (setStaticTollsLink ti tp ss ds st l).1
        rw [hF]
        exact vfold_idem row tp (ss.zip ds) l
  · have hFl : (setStaticTollsLink ti tp ss ds st l).1 = l := by
      rw [setStaticTollsLink_eq_zero ti tp ss ds st l hnz]
    rw [hFl]
    exact hFl

theorem setTolls_static_map (cfg : TollsConfig) (br fr : List TollRow) (tp : String)
    (it di : ℤ) (links : List Link) (hcfg : cfg.run_dynamic_toll = false) :
    (setTolls cfg br fr tp it di links).1 =
      links.map (fun l => (setStaticTollsLink (getTollIndices fr) tp
        cfg.src_vehicle_group_names cfg.dst_vehicle_group_names
        cfg.valuetoll_start_tollbooth_code l).1) := by
  simp only [setTolls, hcfg, Bool.false_eq_true, if_false, List.map_map]
  rfl

/-- C6: the static toll policy is idempotent: applying `_set_tolls` (with
`run_dynamic_toll` false) twice in succession to the same links with the same
toll table yields exactly the same links (in particular the same bridge-toll
and value-toll fields) as applying it once; toll values are assigned, never
accumulated. -/
theorem c6_static_idempotent (cfg : TollsConfig) (br fr : List TollRow) (tp : String)
    (it di : ℤ) (links : List Link) (hcfg : cfg.run_dynamic_toll = false) :
    (setTolls cfg br fr tp it di (setTolls cfg br fr tp it di links).1).1 =
      (setTolls cfg br fr tp it di links).1 := by
  rw [setTolls_static_map cfg br fr tp it di _ hcfg,
    setTolls_static_map cfg br fr tp it di links hcfg, List.map_map]
  induction links with
  | nil => rfl
  | cons a as ih =>
    simp only [List.map_cons] at *
    rw [Function.comp_apply, setStaticTollsLink_idem, ih]

/-- A static-policy tolls configuration for concrete instances. -/
def cfgStatic : TollsConfig :=
  { src_vehicle_group_names := ["da"], dst_vehicle_group_names := ["da"],
    valuetoll_start_tollbooth_code := 11, run_dynamic_toll := false,
    max_dynamic_valuetoll := 1 }

/-- A dynamic-policy tolls configuration for concrete instances. -/
def cfgDyn : TollsConfig :=
  { src_vehicle_group_names := ["da"], dst_vehicle_group_names := ["da"],
    valuetoll_start_tollbooth_code := 11, run_dynamic_toll := true,
    max_dynamic_valuetoll := 1 }

/-- Witness for C6 at a concrete static configuration and network. -/
theorem c6_witness :
    (setTolls cfgStatic [] [rowC5] "AM" 0 0
        (setTolls cfgStatic [] [rowC5] "AM" 0 0 [lC5]).1).1 =
      (setTolls cfgStatic [] [rowC5] "AM" 0 0 [lC5]).1 :=
  c6_static_idempotent cfgStatic [] [rowC5] "AM" 0 0 [lC5] rfl

theorem setDynamicInitLink_eq_zero (ti : ℤ → Option TollRow) (tp : String)
    (ss ds : List String) (st : ℚ) (l : Link) (hz : ¬ l.tollbooth ≠ 0) :
    setDynamicInitLink ti tp ss ds st l = (l, none) := by
  simp only [setDynamicInitLink, if_neg hz]

theorem setDynamicInitLink_eq_none (ti : ℤ → Option TollRow) (tp : String)
    (ss ds : List String) (st : ℚ) (l : Link) (hnz : l.tollbooth ≠ 0)
    (hb : l.tollbooth < st)
    (hidx : ti (pyInt (l.tollbooth * 1000 + l.tollseg * 10 + l.useclass)) = none) :
    setDynamicInitLink ti tp ss ds st l =
      (l, some (pyInt (l.tollbooth * 1000 + l.tollseg * 10 + l.useclass))) := by
  simp only [setDynamicInitLink, if_pos hnz, if_pos hb, hidx]

theorem setDynamicInitLink_eq_bridge (ti : ℤ → Option TollRow) (tp : String)
    (ss ds : List String) (st : ℚ) (l : Link) (row : TollRow) (hnz : l.tollbooth ≠ 0)
    (hb : l.tollbooth < st)
    (hidx : ti (pyInt (l.tollbooth * 1000 + l.tollseg * 10 + l.useclass)) = some row) :
    setDynamicInitLink ti tp ss ds st l =
      ((ss.zip ds).foldl (setBridgeToll row tp) l, none) := by
  simp only [setDynamicInitLink, if_pos hnz, if_pos hb, hidx]

theorem setDynamicInitLink_eq_value (ti : ℤ → Option TollRow) (tp : String)
    (ss ds : List String) (st : ℚ) (l : Link) (hnz : l.tollbooth ≠ 0)
    (hb : ¬ l.tollbooth < st) :
    setDynamicInitLink ti tp ss ds st l =
      ((ss.zip ds).foldl initValueToll { l with update_dynamic_toll := 1 }, none) := by
  simp only [setDynamicInitLink, if_pos hnz, if_neg hb]

/-- The bridge/value exclusivity invariant for one link: on the bridge side
of the `valuetoll_start_tollbooth_code` threshold all value tolls are zero,
on the value side all bridge tolls are zero (untolled links sit on the bridge
side of the comparison).  It holds for the all-zero state produced by
`_create_class_attributes` and is preserved by every `_set_tolls` pass. -/
def tollExclusive (st : ℚ) (l : Link) : Prop :=
  (l.tollbooth < st → ∀ x, l.valuetoll x = 0) ∧
    (¬ l.tollbooth < st → ∀ x, l.bridgetoll x = 0)

theorem exclusive_of_parts {l' : Link} {st : ℚ}
    (h1 : l'.tollbooth < st → ∀ x, l'.valuetoll x = 0)
    (h2 : ¬ l'.tollbooth < st → ∀ x, l'.bridgetoll x = 0) :
    ∀ x y, ¬(l'.bridgetoll x ≠ 0 ∧ l'.valuetoll y ≠ 0) := by
  rintro x y ⟨hbx, hvy⟩
  by_cases hb : l'.tollbooth < st
  · exact hvy (h1 hb y)
  · exact hbx (h2 hb x)

theorem staticLink_exclusive (ti : ℤ → Option TollRow) (tp : String)
    (ss ds : List String) (st : ℚ) (l : Link) (hinv : tollExclusive st l) :
    (setStaticTollsLink ti tp ss ds st l).1.tollbooth = l.tollbooth ∧
      tollExclusive st (setStaticTollsLink ti tp ss ds st l).1 := by
  have hteq := (setStaticTollsLink_fst_immut ti tp ss ds st l).1
  refine ⟨hteq, fun hb x => ?_, fun hb x => ?_⟩
  · rw [hteq] at hb
    by_cases hnz : l.tollbooth ≠ 0
    · cases hidx : ti (pyInt (l.tollbooth * 1000 + l.tollseg * 10 + l.useclass)) with
      | none =>
        rw [setStaticTollsLink_eq_none ti tp ss ds st l hnz hidx]
        exact hinv.1 hb x
      | some row =>
        rw [setStaticTollsLink_eq_bridge ti tp ss ds st l row hnz hidx hb]
        show ((ss.zip ds).foldl (setBridgeToll row tp) l).valuetoll x = 0
        rw [congrFun (bfold_preserved row tp (ss.zip ds) l).2.2.2.2.2.2 x]
        exact hinv.1 hb x
    · rw [setStaticTollsLink_eq_zero ti tp ss ds st l hnz]
      exact hinv.1 hb x
  · rw [hteq] at hb
    by_cases hnz : l.tollbooth ≠ 0
    · cases hidx : ti (pyInt (l.tollbooth * 1000 + l.tollseg * 10 + l.useclass)) with
      | none =>
        rw [setStaticTollsLink_eq_none ti tp ss ds st l hnz hidx]
        exact hinv.2 hb x
      | some row =>
        rw [setStaticTollsLink_eq_value ti tp ss ds st l row hnz hidx hb]
        show ((ss.zip ds).foldl (setValueToll row tp) l).bridgetoll x = 0
        rw [congrFun (vfold_preserved row tp (ss.zip ds) l).2.2.2.2.2.2 x]
        exact hinv.2 hb x
    · rw [setStaticTollsLink_eq_zero ti tp ss ds st l hnz]
      exact hinv.2 hb x

theorem dynInitLink_exclusive (ti : ℤ → Option TollRow) (tp : String)
    (ss ds : List String) (st : ℚ) (l : Link) (hinv : tollExclusive st l) :
    (setDynamicInitLink ti tp ss ds st l).1.tollbooth = l.tollbooth ∧
      tollExclusive st (setDynamicInitLink ti tp ss ds st l).1 := by
  by_cases hnz : l.tollbooth ≠ 0
  · by_cases hb : l.tollbooth < st
    · cases hidx : ti (pyInt (l.tollbooth * 1000 + l.tollseg * 10 + l.useclass)) with
      | none =>
        rw [setDynamicInitLink_eq_none ti tp ss ds st l hnz hb hidx]
        exact ⟨rfl, fun hb2 x => hinv.1 hb2 x, fun hnb => absurd hb hnb⟩
      | some row =>
        rw [setDynamicInitLink_eq_bridge ti tp ss ds st l row hnz hb hidx]
        have hpres := bfold_preserved row tp (ss.zip ds) l
        refine ⟨hpres.1, fun _ x => ?_, fun hnb => absurd (hpres.1 ▸ hb) hnb⟩
        show ((ss.zip ds).foldl (setBridgeToll row tp) l).valuetoll x = 0
        rw [congrFun hpres.2.2.2.2.2.2 x]
        exact hinv.1 hb x
    · rw [setDynamicInitLink_eq_value ti tp ss ds st l hnz hb]
      have hpres := zfold_preserved (ss.zip ds) { l with update_dynamic_toll := 1 }
      refine ⟨hpres.1, fun hb2 => absurd (hpres.1 ▸ hb2) hb, fun _ x => ?_⟩
      show ((ss.zip ds).foldl initValueToll
        { l with update_dynamic_toll := 1 }).bridgetoll x = 0
      rw [congrFun hpres.2.2.2.2.2.2 x]
      exact hinv.2 hb x
  · rw [setDynamicInitLink_eq_zero ti tp ss ds st l hnz]
    exact ⟨rfl, fun hb x => hinv.1 hb x, fun hb x => hinv.2 hb x⟩

theorem dynAdjustLink_exclusive (st m : ℚ) (ss ds : List String) (l : Link)
    (hinv : tollExclusive st l) :
    (dynAdjustLink st m ss ds l).1.tollbooth = l.tollbooth ∧
      tollExclusive st (dynAdjustLink st m ss ds l).1 := by
  by_cases helig : (l.tollbooth > 0 ∧ l.tollbooth ≥ st) ∧ (l.vc > 1 ∧ l.update_dynamic_toll = 1)
  · have hfold := dynAdjustLink_updating st m ss ds l helig.1 helig.2
    have hteq : (dynAdjustLink st m ss ds l).1.tollbooth = l.tollbooth := by
      rw [hfold]
      exact dfold_tollbooth m (pyRound l.vc) _ l
    refine ⟨hteq, fun hb => absurd helig.1.2 (not_le.mpr (hteq ▸ hb)), fun _ x => ?_⟩
    rw [hfold]
    show (((ss.zip ds).map Prod.snd).foldl (updateGroupToll m (pyRound l.vc)) l).bridgetoll
      x = 0
    rw [congrFun (dfold_bridgetoll m (pyRound l.vc) ((ss.zip ds).map Prod.snd) l) x]
    exact hinv.2 (not_lt.mpr helig.1.2) x
  · rw [dynAdjustLink_not_updating st m ss ds l helig]
    exact ⟨rfl, fun hb x => hinv.1 hb x, fun hb x => hinv.2 hb x⟩

theorem setTolls_dyn_init_map (cfg : TollsConfig) (br fr : List TollRow) (tp : String)
    (it di : ℤ) (links : List Link) (hcfg : cfg.run_dynamic_toll = true)
    (hit : it = 0 ∧ di = 0) :
    (setTolls cfg br fr tp it di links).1 =
      links.map (fun l => (setDynamicInitLink (getTollIndices br) tp
        cfg.src_vehicle_group_names cfg.dst_vehicle_group_names
        cfg.valuetoll_start_tollbooth_code l).1) := by
  simp only [setTolls, hcfg, if_true, if_pos hit, List.map_map]
  rfl

theorem setTolls_dyn_adjust_map (cfg : TollsConfig) (br fr : List TollRow) (tp : String)
    (it di : ℤ) (links : List Link) (hcfg : cfg.run_dynamic_toll = true)
    (hit : ¬(it = 0 ∧ di = 0)) :
    (setTolls cfg br fr tp it di links).1 =
      links.map (fun l => (dynAdjustLink cfg.valuetoll_start_tollbooth_code
        cfg.max_dynamic_valuetoll cfg.src_vehicle_group_names
        cfg.dst_vehicle_group_names l).1) := by
  simp only [setTolls, hcfg, if_true, if_neg hit, List.map_map]
  rfl

/-- C4 (amended): the bridge/value exclusivity invariant — on the bridge side
of the `valuetoll_start_tollbooth_code` threshold all value tolls are zero,
on the value side all bridge tolls are zero, so at most one of the two toll
families is ever nonzero (never both) and which family can be nonzero is
determined solely by `@tollbooth` versus the threshold — holds for the
all-zero state created by `_create_class_attributes` and is preserved by
every `_set_tolls` pass (static, dynamic initialization, and dynamic
adjustment alike), hence holds after toll assignment throughout the run; a
lookup miss (or zero table rates) leaves both families zero, so the claimed
"never neither" does not hold. -/
theorem c4_exclusivity_amended (cfg : TollsConfig) (br fr : List TollRow) (tp : String)
    (it di : ℤ) (links : List Link)
    (hinv : ∀ l ∈ links, tollExclusive cfg.valuetoll_start_tollbooth_code l) :
    (∀ l : Link, (∀ x, l.valuetoll x = 0) → (∀ x, l.bridgetoll x = 0) →
        tollExclusive cfg.valuetoll_start_tollbooth_code l) ∧
      ∀ l' ∈ (setTolls cfg br fr tp it di links).1,
        tollExclusive cfg.valuetoll_start_tollbooth_code l' ∧
        (∀ x y, ¬(l'.bridgetoll x ≠ 0 ∧ l'.valuetoll y ≠ 0)) := by
  refine ⟨fun l hv hb => ⟨fun _ x => hv x, fun _ x => hb x⟩, ?_⟩
  intro l' hl'
  by_cases hcfg : cfg.run_dynamic_toll = true
  · by_cases hit : it = 0 ∧ di = 0
    · rw [setTolls_dyn_init_map cfg br fr tp it di links hcfg hit] at hl'
      obtain ⟨l, hl, rfl⟩ := List.mem_map.mp hl'
      obtain ⟨hteq, hE⟩ := dynInitLink_exclusive (getTollIndices br) tp
        cfg.src_vehicle_group_names cfg.dst_vehicle_group_names
        cfg.valuetoll_start_tollbooth_code l (hinv l hl)
      exact ⟨hE, exclusive_of_parts hE.1 hE.2⟩
    · rw [setTolls_dyn_adjust_map cfg br fr tp it di links hcfg hit] at hl'
      obtain ⟨l, hl, rfl⟩ := List.mem_map.mp hl'
      obtain ⟨hteq, hE⟩ := dynAdjustLink_exclusive
        cfg.valuetoll_start_tollbooth_code cfg.max_dynamic_valuetoll
        cfg.src_vehicle_group_names cfg.dst_vehicle_group_names l (hinv l hl)
      exact ⟨hE, exclusive_of_parts hE.1 hE.2⟩
  · rw [setTolls_static_map cfg br fr tp it di links (Bool.not_eq_true _ ▸ hcfg)] at hl'
    obtain ⟨l, hl, rfl⟩ := List.mem_map.mp hl'
    obtain ⟨hteq, hE⟩ := staticLink_exclusive (getTollIndices fr) tp
      cfg.src_vehicle_group_names cfg.dst_vehicle_group_names
      cfg.valuetoll_start_tollbooth_code l (hinv l hl)
    exact ⟨hE, exclusive_of_parts hE.1 hE.2⟩

/-- Concrete link for the C4 counterexample: nonzero `@tollbooth` but its
composite index misses the (empty) toll table. -/
def lC4 : Link :=
  { tollbooth := 1, tollseg := 0, useclass := 0, length := 1, vc := 0,
    update_dynamic_toll := 0, bridgetoll := fun _ => 0, valuetoll := fun _ => 0 }

/-- Counterexample for C4 as stated: after static toll assignment with an
empty table, the returned link still has a nonzero `@tollbooth` yet both its
bridge-toll and value-toll fields are zero, refuting "exactly one of the two
families is nonzero (never neither)". -/
theorem c4_counterexample :
    (setTolls cfgStatic [] [] "AM" 0 0 [lC4]).1 = [lC4] ∧
      lC4.tollbooth ≠ 0 ∧
      ¬(lC4.bridgetoll "da" ≠ 0 ∨ lC4.valuetoll "da" ≠ 0) := by
  refine ⟨?_, by norm_num [lC4], ?_⟩
  · rw [setTolls_static_map cfgStatic [] [] "AM" 0 0 [lC4] rfl]
    rw [List.map_singleton, setStaticTollsLink_eq_none _ _ _ _ _ _
      (by norm_num [lC4]) rfl]
  · rintro (h | h) <;> exact h rfl

/-- Concrete link for the C4 witness: a value-toll link (`@tollbooth = 12`,
at or above the threshold 11) of an already-initialized network, carrying a
nonzero value toll (50 cents) and a zero bridge toll, eligible for a dynamic
adjustment. -/
def lC4b : Link :=
  { tollbooth := 12, tollseg := 0, useclass := 0, length := 1, vc := 6/5,
    update_dynamic_toll := 1, bridgetoll := fun _ => 0, valuetoll := fun _ => 50 }

/-- Witness for C4's amended statement: a dynamic adjustment pass
(iteration 1) on an already-tolled network preserves exclusivity — the
updated link never has both a bridge toll and a value toll. -/
theorem c4_witness :
    ¬((dynAdjustLink 11 1 ["da"] ["da"] lC4b).1.bridgetoll "da" ≠ 0 ∧
      (dynAdjustLink 11 1 ["da"] ["da"] lC4b).1.valuetoll "da" ≠ 0) := by
  have hout : (setTolls cfgDyn [] [] "AM" 1 1 [lC4b]).1 =
      [(dynAdjustLink 11 1 ["da"] ["da"] lC4b).1] := by
    rw [setTolls_dyn_adjust_map cfgDyn [] [] "AM" 1 1 [lC4b] rfl (by norm_num)]
    rfl
  have hmem : (dynAdjustLink 11 1 ["da"] ["da"] lC4b).1 ∈
      (setTolls cfgDyn [] [] "AM" 1 1 [lC4b]).1 := by
    rw [hout]
    exact List.mem_singleton.mpr rfl
  have h := (c4_exclusivity_amended cfgDyn [] [] "AM" 1 1 [lC4b]
    (by intro l hl; rw [List.mem_singleton] at hl; subst hl
        exact ⟨fun hb _ => absurd hb (by norm_num [lC4b, cfgDyn]), fun _ _ => rfl⟩)).2
    (dynAdjustLink 11 1 ["da"] ["da"] lC4b).1 hmem
  exact h.2 "da" "da"

theorem dynTollRunUpdate_spec (ch : ℕ) (ctl : Controller) :
    (ctl.dynamic_toll_iter > 0 ∧ ch = 0 →
        (dynTollRunUpdate true ch ctl).stop_dynamic_toll = true ∧
          (dynTollRunUpdate true ch ctl).dynamic_toll_iter = ctl.dynamic_toll_iter) ∧
      (¬(ctl.dynamic_toll_iter > 0 ∧ ch = 0) →
        (dynTollRunUpdate true ch ctl).stop_dynamic_toll = ctl.stop_dynamic_toll ∧
          (ctl.stop_dynamic_toll = false →
            (dynTollRunUpdate true ch ctl).dynamic_toll_iter = ctl.dynamic_toll_iter + 1) ∧
          (ctl.stop_dynamic_toll = true →
            (dynTollRunUpdate true ch ctl).dynamic_toll_iter = ctl.dynamic_toll_iter)) ∧
      (dynTollRunUpdate true ch ctl).iteration = ctl.iteration := by
  by_cases hA : ctl.dynamic_toll_iter > 0 ∧ ch = 0
  · simp [dynTollRunUpdate, hA]
  · cases hstop : ctl.stop_dynamic_toll <;> simp [dynTollRunUpdate, hA, hstop]

/-- C3: when dynamic tolling is enabled, after `run()` has processed all time
periods the run-level dynamic-toll state is updated exactly once, as a
function of the input controller and the per-call change counter (reset to 0
at the start of `run()` and accumulated over all periods): if the dynamic-toll
iteration counter was already positive and the change counter is 0, the stop
flag is set (and the counter is unchanged); otherwise the stop flag is
unchanged and, if it was not set, the counter is incremented by exactly 1.
The overall iteration counter is never touched. -/
theorem c3_run_level_update (cfg : TollsConfig) (br fr : List TollRow) (msa : Bool)
    (rest : List Link → List Link) (ctl : Controller)
    (nets : List (String × List Link)) (hdyn : cfg.run_dynamic_toll = true) :
    ((run cfg br fr msa rest ctl nets).controller =
        dynTollRunUpdate true (run cfg br fr msa rest ctl nets).dynamic_toll_change ctl) ∧
      (ctl.dynamic_toll_iter > 0 ∧ (run cfg br fr msa rest ctl nets).dynamic_toll_change = 0 →
        (run cfg br fr msa rest ctl nets).controller.stop_dynamic_toll = true ∧
          (run cfg br fr msa rest ctl nets).controller.dynamic_toll_iter =
            ctl.dynamic_toll_iter) ∧
      (¬(ctl.dynamic_toll_iter > 0 ∧
            (run cfg br fr msa rest ctl nets).dynamic_toll_change = 0) →
        (run cfg br fr msa rest ctl nets).controller.stop_dynamic_toll =
            ctl.stop_dynamic_toll ∧
          (ctl.stop_dynamic_toll = false →
            (run cfg br fr msa rest ctl nets).controller.dynamic_toll_iter =
              ctl.dynamic_toll_iter + 1) ∧
          (ctl.stop_dynamic_toll = true →
            (run cfg br fr msa rest ctl nets).controller.dynamic_toll_iter =
              ctl.dynamic_toll_iter)) ∧
      (run cfg br fr msa rest ctl nets).controller.iteration = ctl.iteration := by
  have hctl : (run cfg br fr msa rest ctl nets).controller =
      dynTollRunUpdate true (run cfg br fr msa rest ctl nets).dynamic_toll_change ctl := by
    simp only [run, hdyn]
  have hspec := dynTollRunUpdate_spec (run cfg br fr msa rest ctl nets).dynamic_toll_change ctl
  rw [hctl]
  exact ⟨rfl, hspec.1, hspec.2.1, hspec.2.2⟩

/-- Witness for C3: a run with a positive dynamic-toll iteration counter and
no toll change sets the stop flag. -/
theorem c3_witness :
    (run cfgDyn [] [] false id ⟨1, 1, false⟩ [("AM", [])]).controller.stop_dynamic_toll =
      true := by
  have h := c3_run_level_update cfgDyn [] [] false id ⟨1, 1, false⟩ [("AM", [])] rfl
  exact (h.2.1 ⟨by norm_num, by rfl⟩).1

theorem runPeriods_create_calls (cfg : TollsConfig) (br fr : List TollRow) (msa : Bool)
    (rest : List Link → List Link) (ctl : Controller) :
    ∀ nets : List (String × List Link),
      (runPeriods cfg br fr msa rest ctl nets).2.2 =
        if ctl.iteration = 0 ∧ ctl.dynamic_toll_iter = 0 then nets.map Prod.fst else [] := by
  intro nets
  induction nets with
  | nil =>
    by_cases hg : ctl.iteration = 0 ∧ ctl.dynamic_toll_iter = 0 <;>
      simp [runPeriods, hg]
  | cons p more ih =>
    obtain ⟨time, links⟩ := p
    by_cases hg : ctl.iteration = 0 ∧ ctl.dynamic_toll_iter = 0
    · simp only [runPeriods, if_pos hg, List.map_cons]
      rw [ih, if_pos hg]
      rfl
    · simp only [runPeriods, if_neg hg]
      rw [ih, if_neg hg]
      rfl

/-- C9 (amended): `_create_class_attributes` is executed if and only if the
overall iteration counter is 0 and the dynamic-toll iteration counter is 0,
and under that guard it is executed once per time period (in each period's
scenario) — not a single time for the whole run. -/
theorem c9_create_calls (cfg : TollsConfig) (br fr : List TollRow) (msa : Bool)
    (rest : List Link → List Link) (ctl : Controller)
    (nets : List (String × List Link)) :
    (run cfg br fr msa rest ctl nets).create_calls =
      if ctl.iteration = 0 ∧ ctl.dynamic_toll_iter = 0 then nets.map Prod.fst else [] := by
  show (runPeriods cfg br fr msa rest ctl nets).2.2 = _
  exact runPeriods_create_calls cfg br fr msa rest ctl nets

/-- Counterexample for C9 as stated: in a two-period run at overall iteration
0 and dynamic-toll iteration 0, `_create_class_attributes` is invoked twice —
once per time period — not "a single time for the whole run". -/
theorem c9_counterexample :
    (run cfgStatic [] [] false id ⟨0, 0, false⟩ [("AM", []), ("PM", [])]).create_calls =
      ["AM", "PM"] ∧
      (run cfgStatic [] [] false id ⟨0, 0, false⟩
        [("AM", []), ("PM", [])]).create_calls.length ≠ 1 := by
  have h1 : (run cfgStatic [] [] false id ⟨0, 0, false⟩
      [("AM", []), ("PM", [])]).create_calls = ["AM", "PM"] := by rfl
  exact ⟨h1, by rw [h1]; decide⟩

theorem validate_inputs_true_eq (toll_file_path header_line : String)
    (time_periods src_veh_groups : List String) :
    validate_inputs true toll_file_path header_line time_periods src_veh_groups =
      (if ((requiredTollColumns time_periods src_veh_groups).filter
            (fun column => decide (column ∉ parsedHeader header_line))).isEmpty then
        .ok ()
      else
        .error (.fileFormat ((requiredTollColumns time_periods src_veh_groups).filter
          (fun column => decide (column ∉ parsedHeader header_line))))) := rfl

/-- C7: `validate_inputs` raises `FileNotFoundError` when the toll file does
not exist (the function touches no network state, so no graph mutation can
precede the error); when the file exists but required columns are absent it
raises `FileFormatError` whose payload enumerates exactly the set of missing
columns — every required column absent from the header, not just the first. -/
theorem c7_validate_inputs (toll_file_path header_line : String)
    (time_periods src_veh_groups : List String) :
    (validate_inputs false toll_file_path header_line time_periods src_veh_groups =
        .error (.fileNotFound toll_file_path)) ∧
      (∀ ms, validate_inputs true toll_file_path header_line time_periods src_veh_groups =
          .error (.fileFormat ms) →
        ∀ c, c ∈ ms ↔ (c ∈ requiredTollColumns time_periods src_veh_groups ∧
          c ∉ parsedHeader header_line)) ∧
      ((∃ c ∈ requiredTollColumns time_periods src_veh_groups,
          c ∉ parsedHeader header_line) →
        ∃ ms, validate_inputs true toll_file_path header_line time_periods src_veh_groups =
          .error (.fileFormat ms)) := by
  refine ⟨rfl, ?_, ?_⟩
  · intro ms hms c
    rw [validate_inputs_true_eq] at hms
    by_cases he : ((requiredTollColumns time_periods src_veh_groups).filter
        (fun column => decide (column ∉ parsedHeader header_line))).isEmpty
    · rw [if_pos he] at hms
      exact absurd hms (by simp)
    · rw [if_neg he] at hms
      simp only [Except.error.injEq, TollFileErr.fileFormat.injEq] at hms
      rw [← hms]
      simp [List.mem_filter]
  · rintro ⟨c, hc, hnc⟩
    have hmem : c ∈ (requiredTollColumns time_periods src_veh_groups).filter
        (fun column => decide (column ∉ parsedHeader header_line)) :=
      List.mem_filter.mpr ⟨hc, by simpa using hnc⟩
    have hne : ¬ ((requiredTollColumns time_periods src_veh_groups).filter
        (fun column => decide (column ∉ parsedHeader header_line))).isEmpty = true := by
      intro h
      rw [List.isEmpty_iff] at h
      rw [h] at hmem
      cases hmem
    exact ⟨_, by rw [validate_inputs_true_eq, if_neg hne]⟩

/-- Witness for C7: a missing file raises `FileNotFoundError`, and a file
whose header lacks `tollam_sr2` raises `FileFormatError`. -/
theorem c7_witness :
    validate_inputs false "tolls.csv" "" ["AM"] ["da"] =
        .error (.fileNotFound "tolls.csv") ∧
      ∃ ms, validate_inputs true "tolls.csv" "fac_index, tollam_da" ["AM"] ["da", "sr2"] =
        .error (.fileFormat ms) := by
  refine ⟨(c7_validate_inputs "tolls.csv" "" ["AM"] ["da"]).1, ?_⟩
  exact (c7_validate_inputs "tolls.csv" "fac_index, tollam_da" ["AM"] ["da", "sr2"]).2.2
    ⟨"tollam_sr2", by decide, by decide⟩

theorem createClassModesAux_ok_nodup :
    ∀ (cs : List AssignClass) (dict : List (String × List String))
      (created : List (String × String)),
      (created.map Prod.fst).Nodup →
      (∀ k ∈ created.map Prod.fst, (dict.lookup k).isSome) →
      ∀ ms, createClassModesAux cs dict created = .ok ms → (ms.map Prod.fst).Nodup := by
  intro cs
  induction cs with
  | nil =>
    intro dict created hnd _ ms hms
    simp only [createClassModesAux, Except.ok.injEq] at hms
    rw [← hms, List.map_reverse]
    exact List.nodup_reverse.mpr hnd
  | cons c cs ih =>
    intro dict created hnd hlk ms hms
    simp only [createClassModesAux] at hms
    cases hl : dict.lookup c.mode_code with
    | some ex1 =>
      rw [hl] at hms
      dsimp only at hms
      by_cases hex : c.excluded_links ≠ ex1
      · rw [if_pos hex] at hms
        exact absurd hms (by simp)
      · rw [if_neg hex] at hms
        exact ih dict created hnd hlk ms hms
    | none =>
      rw [hl] at hms
      dsimp only at hms
      refine ih ((c.mode_code, c.excluded_links) :: dict)
        ((c.mode_code, c.name) :: created) ?_ ?_ ms hms
      · rw [List.map_cons, List.nodup_cons]
        refine ⟨fun hin => ?_, hnd⟩
        have := hlk c.mode_code hin
        rw [hl] at this
        cases this
      · intro k hk
        rcases List.mem_cons.mp hk with rfl | hk'
        · simp [List.lookup]
        · by_cases hbeq : k = c.mode_code
          · subst hbeq
            simp [List.lookup]
          · have : (((c.mode_code, c.excluded_links) :: dict).lookup k) = dict.lookup k := by
              simp [List.lookup, hbeq, beq_eq_false_iff_ne.mpr hbeq]
            rw [this]
            exact hlk k hk'

/-- C8 (amended): two configured classes sharing a mode code but with
different `excluded_links` lists make `_set_link_modes` fail with an
exception whose message names the duplicated mode code and both criteria
lists (but not the class names); with identical lists the sharing is
accepted and exactly one mode is created per distinct mode code (each mode
described by the first class's name). -/
theorem c8_dup_mode_code_amended (cls1 cls2 : AssignClass)
    (hcode : cls2.mode_code = cls1.mode_code) :
    (cls2.excluded_links ≠ cls1.excluded_links →
        createClassModes [cls1, cls2] =
          .error (dupModeCodeMsg cls2.mode_code cls1.excluded_links cls2.excluded_links)) ∧
      (cls2.excluded_links = cls1.excluded_links →
        createClassModes [cls1, cls2] = .ok [(cls1.mode_code, cls1.name)]) ∧
      (∀ cs ms, createClassModes cs = .ok ms → (ms.map Prod.fst).Nodup) := by
  refine ⟨fun hne => ?_, fun heq => ?_, fun cs ms hms =>
    createClassModesAux_ok_nodup cs [] [] List.nodup_nil (by intro k hk; cases hk) ms hms⟩
  · simp [createClassModes, createClassModesAux, List.lookup, hcode, hne]
  · simp [createClassModes, createClassModesAux, List.lookup, hcode, heq]

/-- The two classes of the C8 counterexample: distinctive names that do not
occur in the raised message. -/
def clsC8a : AssignClass :=
  { name := "ZQONE", mode_code := "x", excluded_links := ["is_sr"] }

/-- Second class for the C8 counterexample. -/
def clsC8b : AssignClass :=
  { name := "ZQTWO", mode_code := "x", excluded_links := ["is_sr2"] }

/-- Counterexample for C8 as stated: the raised message does not name the
offending classes (neither "ZQONE" nor "ZQTWO" occurs in it); it names the
shared mode code and the two criteria lists instead. -/
theorem c8_counterexample :
    createClassModes [clsC8a, clsC8b] =
        .error (dupModeCodeMsg "x" ["is_sr"] ["is_sr2"]) ∧
      strContainsSub (dupModeCodeMsg "x" ["is_sr"] ["is_sr2"]) "ZQONE" = false ∧
      strContainsSub (dupModeCodeMsg "x" ["is_sr"] ["is_sr2"]) "ZQTWO" = false := by
  refine ⟨?_, by decide, by decide⟩
  simp [createClassModes, createClassModesAux, List.lookup, clsC8a, clsC8b]

/-- Witness for C8's amended statement: the raised message contains the
duplicated mode code and the Python rendering of both criteria lists. -/
theorem c8_witness :
    createClassModes [clsC8a, clsC8b] =
        .error (dupModeCodeMsg clsC8b.mode_code clsC8a.excluded_links
          clsC8b.excluded_links) ∧
      strContainsSub (dupModeCodeMsg clsC8b.mode_code clsC8a.excluded_links
          clsC8b.excluded_links) (pyStrListRepr clsC8a.excluded_links) = true ∧
      strContainsSub (dupModeCodeMsg clsC8b.mode_code clsC8a.excluded_links
          clsC8b.excluded_links) (pyStrListRepr clsC8b.excluded_links) = true ∧
      strContainsSub (dupModeCodeMsg clsC8b.mode_code clsC8a.excluded_links
          clsC8b.excluded_links) clsC8b.mode_code = true := by
  refine ⟨(c8_dup_mode_code_amended clsC8a clsC8b (by decide)).1 (by decide),
    by decide, by decide, by decide⟩

end Tm2py
